import Mathlib

/-!
Verification of the translation-relay service core (`src/server.js`) against
its natural-language specification.  The JavaScript source is shallowly
embedded: bytes are `Nat` values below 256, 16-bit PCM samples are `Int`,
buffers are lists, the external AI services are oracle functions, and the
side-effecting pipeline is modelled by the trace of observable events it
produces.  JavaScript 32-bit bitwise semantics (`~x = -(x+1)`) and `Buffer`
byte truncation (mod 256) are made explicit where the code relies on them.
-/

namespace Relay

/-! ## Codec: `mulawToLinear` / `linearToMulaw` (src/server.js lines 754-781) -/

/-- Embedding of `mulawToLinear` (src/server.js:755-763).  The argument is a
byte read out of a `Buffer`, hence a `Nat` below 256; the result is the JS
number returned, which is an exact integer. -/
def mulawToLinear (mulaw : Nat) : Int :=
  let bias : Nat := 0x84
  let sign : Nat := mulaw &&& 0x80
  let exponent : Nat := (mulaw >>> 4) &&& 0x07
  let mantissa : Nat := mulaw &&& 0x0F
  let sample : Nat := mantissa <<< (exponent + 3)
  let sample : Nat := if exponent ≠ 0 then sample + (bias <<< exponent) else sample
  if sign ≠ 0 then -(sample : Int) else (sample : Int)

/-- The exponent-search loop of `linearToMulaw` (src/server.js:771-777):
`for (let exp = 0; exp < 8; exp++) if (sample <= (0x1F << (exp + 3))) { exponent = exp; break; }`
with `exponent` initialised to 7.  `fuel` counts the remaining iterations. -/
def findExpAux (sample : Nat) : Nat → Nat → Nat
  | 0, _ => 7
  | fuel + 1, exp =>
    if sample ≤ 0x1F <<< (exp + 3) then exp else findExpAux sample fuel (exp + 1)

/-- The exponent `linearToMulaw` settles on for a biased magnitude. -/
def mulawExponent (sample : Nat) : Nat := findExpAux sample 8 0

/-- The packed `sign | exponent << 4 | mantissa` byte built inside
`linearToMulaw` just before the final `~`. -/
def mulawPacked (linear : Int) : Nat :=
  let bias : Nat := 0x84
  let sample : Nat := linear.natAbs + bias
  let sign : Nat := if linear < 0 then 0x80 else 0
  let exponent : Nat := mulawExponent sample
  let mantissa : Nat := (sample >>> (exponent + 3)) &&& 0x0F
  sign ||| (exponent <<< 4) ||| mantissa

/-- Embedding of `linearToMulaw` (src/server.js:765-781).  The JS function
ends in `return ~(sign | (exponent << 4) | mantissa)`; on a 32-bit operand
`x` with `0 ≤ x ≤ 255` the JS `~x` is exactly `-(x+1)`, which is the number
the function returns. -/
def linearToMulaw (linear : Int) : Int :=
  -((mulawPacked linear : Int) + 1)

/-- Embedding of `convertMulawToWav` (src/server.js:733-742): each input byte
is decoded and the resulting sample is written with `writeInt16LE`.  We model
the buffer of samples as the list of values handed to `writeInt16LE`. -/
def convertMulawToWav (mulawData : List Nat) : List Int :=
  mulawData.map mulawToLinear

/-- Embedding of `convertWavToMulaw` (src/server.js:744-752): each 16-bit
sample is encoded and assigned to a `Buffer` cell, which truncates the JS
number to its low byte (mod 256, non-negative). -/
def convertWavToMulaw (wavData : List Int) : List Nat :=
  wavData.map (fun s => ((linearToMulaw s) % (256 : Int)).toNat)

/-- JavaScript `String.prototype.trim()`: strip whitespace from both ends.
(Lean's own `String.trim` is extensionally the same but is built on byte
positions that the kernel cannot evaluate, so the character-list form is
used.) -/
def jsTrim (s : String) : String :=
  ⟨((s.data.dropWhile Char.isWhitespace).reverse.dropWhile Char.isWhitespace).reverse⟩

/-- JavaScript `s.startsWith(pre)`. -/
def startsWith (s pre : String) : Bool := pre.data.isPrefixOf s.data

/-! ## Audio framing: `processAudioForTranslation` (src/server.js:657-686)

Per media message the handler appends the decoded payload to the pending
buffer for the `(sessionId, participant)` key; **if** (not while) the buffer
now holds at least `AUDIO_CONFIG.chunkSize = 1600` bytes it slices one frame
off the front, stores the remainder, and hands the frame to the pipeline. -/

/-- `AUDIO_CONFIG.chunkSize` (src/server.js:35). -/
def chunkSize : Nat := 1600

/-- One call of `processAudioForTranslation` for a fixed key, restricted to
its buffering behaviour: given the pending buffer and the incoming chunk,
return the frames handed to `translateAndForwardAudio` (zero or one) and the
new pending buffer. -/
def processAudioChunk (pending chunk : List Nat) : List (List Nat) × List Nat :=
  let buffer := pending ++ chunk
  if chunkSize ≤ buffer.length then
    ([buffer.take chunkSize], buffer.drop chunkSize)
  else
    ([], buffer)

/-- Repeated media messages for one key: fold `processAudioChunk` over the
incoming chunks, collecting every emitted frame in order. -/
def processFeeds (pending : List Nat) : List (List Nat) → List (List Nat) × List Nat
  | [] => ([], pending)
  | c :: cs =>
    let step := processAudioChunk pending c
    let rest := processFeeds step.2 cs
    (step.1 ++ rest.1, rest.2)

/-! ## Translation pipeline: `translateAndForwardAudio` (src/server.js:689-730)

The external AI services are oracles.  `transcribeAudio` catches its own
errors and returns `null`, so it is total with an `Option` result;
`translateText` catches errors and falls back to its input, so it is total;
`synthesizeSpeech` rethrows, so a `none` there aborts the frame (the
pipeline's own `try/catch` swallows the error).  The observable behaviour of
one pipeline invocation is the sequence of service calls and routed frames. -/

/-- Oracle for the three OpenAI-backed services. -/
structure Services where
  /-- `transcribeAudio` (src/server.js:784-805): WAV samples and a language
  hint to transcript text, `none` for the `null` returned on error. -/
  transcribe : List Int → String → Option String
  /-- The raw chat-completion call inside `translateText`
  (src/server.js:807-830): `none` models a thrown service error. -/
  translate : String → String → String → Option String
  /-- `synthesizeSpeech` (src/server.js:832-847): `none` models the rethrown
  error, `some` the synthesized PCM samples. -/
  synthesize : String → String → Option (List Int)

/-- Embedding of `translateText` (src/server.js:807-830): on success the
completion text is trimmed and returned; on failure the original text is
returned (`return text; // Return original if translation fails`). -/
def translateText (svc : Services) (text fromLang toLang : String) : String :=
  match svc.translate text fromLang toLang with
  | some completion => jsTrim completion
  | none => text

/-- Observable events of one pipeline invocation. -/
inductive PipelineEvent
  /-- A call of `transcribeAudio` with the WAV samples and language hint. -/
  | transcribeCall (audio : List Int) (lang : String)
  /-- A call of `translateText` with transcript, source and target language. -/
  | translateCall (text fromLang toLang : String)
  /-- A call of `synthesizeSpeech` with the text it receives and the target
  language. -/
  | synthesizeCall (text lang : String)
  /-- A call of `sendAudioToParticipant` with the encoded frame and the
  destination participant type. -/
  | route (audio : List Nat) (target : String)
  deriving DecidableEq

/-- Embedding of `translateAndForwardAudio` (src/server.js:689-730) as the
trace of observable events of one invocation.  `languagesPhone` and
`languagesWeb` are `session.languages.phone` / `session.languages.web`. -/
def translateAndForwardAudio (svc : Services) (audioData : List Nat)
    (sourceParticipant languagesPhone languagesWeb : String) :
    List PipelineEvent :=
  let sourceLanguage :=
    if sourceParticipant = "phone" then languagesPhone else languagesWeb
  let targetLanguage :=
    if sourceParticipant = "phone" then languagesWeb else languagesPhone
  if sourceLanguage = targetLanguage then []
  else
    let wavAudio := convertMulawToWav audioData
    let ev1 := [PipelineEvent.transcribeCall wavAudio sourceLanguage]
    match svc.transcribe wavAudio sourceLanguage with
    | none => ev1
    | some transcription =>
      if (jsTrim transcription).length = 0 then ev1
      else
        let ev2 := ev1 ++
          [PipelineEvent.translateCall transcription sourceLanguage targetLanguage]
        let translation := translateText svc transcription sourceLanguage targetLanguage
        let ev3 := ev2 ++ [PipelineEvent.synthesizeCall translation targetLanguage]
        match svc.synthesize translation targetLanguage with
        | none => ev3
        | some translatedAudio =>
          let mulawAudio := convertWavToMulaw translatedAudio
          let target := if sourceParticipant = "phone" then "web" else "phone"
          ev3 ++ [PipelineEvent.route mulawAudio target]

/-- Successive frames of one media stream: each `media` message is handled by
the websocket `message` listener, whose `try/catch` (and the pipeline's own)
absorbs any per-frame failure, so the next frame is processed regardless. -/
def processFrames (svc : Services)
    (sourceParticipant languagesPhone languagesWeb : String) :
    List (List Nat) → List PipelineEvent
  | [] => []
  | f :: fs =>
    translateAndForwardAudio svc f sourceParticipant languagesPhone languagesWeb ++
      processFrames svc sourceParticipant languagesPhone languagesWeb fs

/-! ## Sessions and the registry (`activeSessions`, src/server.js:19,260-563)

Sessions live in the `activeSessions` map keyed by session id, modelled as an
association list.  Wall-clock values (`new Date()`, ISO timestamps) are
modelled as `Nat` instants; the Twilio-specific record fields (`callSid`,
`from`, `to`) carried by participants are irrelevant to every claim and are
abstracted away, keeping join/leave times.  The per-key audio buffers are
modelled separately in the framing section above. -/

/-- One leg's bookkeeping record inside `session.participants`. -/
structure Participant where
  joinedAt : Nat
  leftAt : Option Nat := none
  deriving DecidableEq

/-- The session record stored in `activeSessions` (src/server.js:277-289). -/
structure Session where
  sessionId : String
  conferenceId : String
  phoneNumber : String
  languagesPhone : String
  languagesWeb : String
  status : String
  createdAt : Nat
  lastCallStatus : Option String := none
  participants : List (String × Participant) := []
  deriving DecidableEq

/-- Association-list lookup, the model of `Map.get`/`Map.has`. -/
def lookupAssoc {α : Type} : List (String × α) → String → Option α
  | [], _ => none
  | (k, v) :: rest, key => if k = key then some v else lookupAssoc rest key

/-- Association-list update, the model of `Map.set` (replaces an existing
binding for the key, otherwise appends). -/
def setAssoc {α : Type} : List (String × α) → String → α → List (String × α)
  | [], key, v => [(key, v)]
  | (k, w) :: rest, key, v =>
    if k = key then (k, v) :: rest else (k, w) :: setAssoc rest key v

/-- The registry state relevant to the lifecycle claims: the `activeSessions`
table plus the delayed deletions scheduled with `setTimeout` (delay in
milliseconds paired with the session id to delete). -/
structure Registry where
  sessions : List (String × Session)
  timers : List (Nat × String)
  deriving DecidableEq

/-- JS truthiness of an optional string: `undefined` and `""` are falsy. -/
def falsy (s : Option String) : Bool := s.getD "" = ""

/-- Embedding of the `/call-status` webhook handler (src/server.js:489-512):
if the query carries a session id that is in the registry, record the call
status and move the session to `phone_answered` on `answered`, to
`call_ended` on `completed`/`failed`. -/
def handleCallStatus (reg : Registry) (querySession : Option String)
    (callStatus : String) : Registry :=
  if falsy querySession then reg
  else
    let sid := querySession.getD ""
    match lookupAssoc reg.sessions sid with
    | none => reg
    | some s =>
      let s := { s with lastCallStatus := some callStatus }
      let s :=
        if callStatus = "answered" then { s with status := "phone_answered" }
        else if callStatus = "completed" ∨ callStatus = "failed" then
          { s with status := "call_ended" }
        else s
      { reg with sessions := setAssoc reg.sessions sid s }

/-- Embedding of the `/conference-status` webhook handler
(src/server.js:515-563).  `now` stands for `new Date()` at handling time.
On `conference-end` the handler sets `conference_ended` and schedules
deletion of the session after 60000 ms (`setTimeout(..., 60000)`), modelled
by pushing a timer. -/
def handleConferenceStatus (reg : Registry) (querySession queryParticipant :
    Option String) (event : String) (now : Nat) : Registry :=
  if falsy querySession then reg
  else
    let sid := querySession.getD ""
    match lookupAssoc reg.sessions sid with
    | none => reg
    | some s =>
      if event = "participant-join" then
        let s :=
          if queryParticipant = some "web" then { s with status := "web_joined" }
          else if queryParticipant = some "phone" then
            { s with status := "phone_in_conference" }
          else s
        { reg with sessions := setAssoc reg.sessions sid s }
      else if event = "participant-leave" then
        let s :=
          match queryParticipant with
          | none => s
          | some p =>
            match lookupAssoc s.participants p with
            | none => s
            | some part =>
              { s with participants :=
                  setAssoc s.participants p { part with leftAt := some now } }
        { reg with sessions := setAssoc reg.sessions sid s }
      else if event = "conference-start" then
        { reg with sessions :=
            setAssoc reg.sessions sid { s with status := "conference_active" } }
      else if event = "conference-end" then
        { sessions :=
            setAssoc reg.sessions sid { s with status := "conference_ended" },
          timers := (60000, sid) :: reg.timers }
      else reg

/-- Elapse `t` milliseconds: every timer scheduled with delay `≤ t` fires and
deletes its session from the registry (`activeSessions.delete(sessionId)`,
src/server.js:552-555). -/
def elapse (t : Nat) (reg : Registry) : Registry :=
  let fired := reg.timers.filter (fun timer => timer.1 ≤ t)
  { sessions :=
      reg.sessions.filter (fun kv => fired.all (fun timer => timer.2 ≠ kv.1)),
    timers := reg.timers.filter (fun timer => ¬ timer.1 ≤ t) }

/-! ## Incoming-call handler: `handleIncomingCall` (src/server.js:322-393) -/

/-- The TwiML response shapes the handler can produce: a spoken message
followed by `hangup`, or `connect/stream` plus `dial/conference` attaching
the caller to a session as the given participant type. -/
inductive CallAction
  | sayHangup (message : String)
  | connectAndDial (sessionId participant : String)
  deriving DecidableEq

/-- The `filter(status).sort(createdAt desc)[0]` selection of
src/server.js:333-336: the first session (in table order, as JS stable sort
keeps ties in order) with maximal `createdAt` among those in status
`phone_answered` or `phone_calling`. -/
def mostRecentActive (sessions : List (String × Session)) : Option Session :=
  ((sessions.map Prod.snd).filter
      (fun s => s.status = "phone_answered" ∨ s.status = "phone_calling")).foldl
    (fun acc s =>
      match acc with
      | none => some s
      | some a => if a.createdAt < s.createdAt then some s else acc)
    none

/-- Embedding of `handleIncomingCall` (src/server.js:322-393) together with
its helper `handleWebCallWithSession` (src/server.js:396-428).  Inputs are
the registry table, the `session`/`type` query parameters, the request body's
`From`, and the current instant; the result is the TwiML action plus the
updated table. -/
def handleIncomingCall (sessions : List (String × Session))
    (querySession queryType bodyFrom : Option String) (now : Nat) :
    CallAction × List (String × Session) :=
  let participantType := if falsy queryType then "phone" else queryType.getD ""
  if participantType = "web" ∧ falsy querySession ∧ ¬ falsy bodyFrom ∧
      startsWith (bodyFrom.getD "") "client:" then
    match mostRecentActive sessions with
    | some recent =>
      (CallAction.connectAndDial recent.sessionId "web",
       setAssoc sessions recent.sessionId
         { recent with
             participants := setAssoc recent.participants "web" { joinedAt := now },
             status := "web_joining" })
    | none =>
      (CallAction.sayHangup
        "No active translation session found. Please start a new session.",
       sessions)
  else
    if falsy querySession ∨ lookupAssoc sessions (querySession.getD "") = none then
      (CallAction.sayHangup
        "Sorry, this session is not available. Please try again.",
       sessions)
    else
      match lookupAssoc sessions (querySession.getD "") with
      | none =>
        (CallAction.sayHangup
          "Sorry, this session is not available. Please try again.",
         sessions)
      | some session =>
        (CallAction.connectAndDial (querySession.getD "") participantType,
         setAssoc sessions (querySession.getD "")
           { session with
               participants :=
                 setAssoc session.participants participantType { joinedAt := now } })

/-! ## Stream registry: `activeStreams` (src/server.js:20,582-629,850-876) -/

/-- The value stored in `activeStreams`: `{ ws, participant, sessionId }`
with the socket abstracted away. -/
structure StreamEntry where
  participant : String
  sessionId : String
  deriving DecidableEq

/-- The stream key construction used both at registration
(src/server.js:593, `` `${sessionId}-${participant}` ``) and at delivery
(src/server.js:852, `` `${session.sessionId}-${targetParticipant}` ``). -/
def streamKey (sessionId participant : String) : String :=
  sessionId ++ "-" ++ participant

/-- `handleMediaStream`'s registration step (src/server.js:592-594). -/
def registerStream (streams : List (String × StreamEntry))
    (sessionId participant : String) : List (String × StreamEntry) :=
  setAssoc streams (streamKey sessionId participant) ⟨participant, sessionId⟩

/-- The lookup `activeStreams.get(streamKey)` performed by
`sendAudioToParticipant` (src/server.js:852-853) for a delivery tagged with
`sessionId` and aimed at `targetParticipant`. -/
def deliveryLookup (streams : List (String × StreamEntry))
    (sessionId targetParticipant : String) : Option StreamEntry :=
  lookupAssoc streams (streamKey sessionId targetParticipant)

/-- Every entry of `activeStreams` sits under the key built from its own
recorded session id and participant string — exactly how `handleMediaStream`
installs entries. -/
def StreamsWellFormed (streams : List (String × StreamEntry)) : Prop :=
  ∀ kv ∈ streams, kv.1 = streamKey kv.2.sessionId kv.2.participant

/-! ## Concrete instances used by the witness theorems -/

/-- Two media messages of 1000 and 800 payload bytes for one stream key. -/
def witnessChunks : List (List Nat) := [List.replicate 1000 0, List.replicate 800 1]

/-- A service oracle whose translation call always fails and whose other
services succeed. -/
def svcTranslateFails : Services where
  transcribe := fun _ _ => some "hola"
  translate := fun _ _ _ => none
  synthesize := fun _ _ => some [1]

/-- A service oracle whose speech-synthesis call always fails. -/
def svcSynthesizeFails : Services where
  transcribe := fun _ _ => some "hola"
  translate := fun _ _ _ => some " hello "
  synthesize := fun _ _ => none

/-- A session mid-dial, as stored right after `/create-session` placed the
outbound call. -/
def sessionCalling : Session :=
  { sessionId := "S", conferenceId := "translation-S", phoneNumber := "+15550100",
    languagesPhone := "es", languagesWeb := "en", status := "phone_calling",
    createdAt := 0 }

/-- A freshly created session, before the outbound call is placed. -/
def sessionCreated : Session :=
  { sessionId := "s1", conferenceId := "translation-s1", phoneNumber := "+15550100",
    languagesPhone := "es", languagesWeb := "en", status := "created",
    createdAt := 0 }

/-- Canonical 36-character session ids as `uuidv4()` produces them. -/
def uuidA : String := "aaaaaaaa-0000-4000-8000-000000000001"

/-- A second, distinct 36-character session id. -/
def uuidB : String := "aaaaaaaa-0000-4000-8000-000000000002"

/-- A stream table holding one handle per session for two sessions. -/
def witnessStreams : List (String × StreamEntry) :=
  [(streamKey uuidA "phone", ⟨"phone", uuidA⟩),
   (streamKey uuidB "web", ⟨"web", uuidB⟩)]

/-! # Theorems

## C1 — framing -/

/-- Invariant of the per-key accumulator: starting from a pending buffer
shorter than a frame and feeding chunks no longer than a frame, the handler
preserves byte order, emits only full frames, and keeps exactly the running
total modulo the frame size pending. -/
theorem processFeeds_spec (chunks : List (List Nat)) (pending : List Nat)
    (hp : pending.length < chunkSize)
    (hc : ∀ c ∈ chunks, c.length ≤ chunkSize) :
    ((processFeeds pending chunks).1.flatten ++ (processFeeds pending chunks).2 =
       pending ++ chunks.flatten) ∧
    (∀ f ∈ (processFeeds pending chunks).1, f.length = chunkSize) ∧
    (processFeeds pending chunks).2.length =
      (pending.length + (chunks.map List.length).sum) % chunkSize ∧
    (processFeeds pending chunks).1.length =
      (pending.length + (chunks.map List.length).sum) / chunkSize := by
  induction chunks generalizing pending with
  | nil =>
    simp [processFeeds, Nat.mod_eq_of_lt hp, Nat.div_eq_of_lt hp]
  | cons c cs ih =>
    have hcs : ∀ x ∈ cs, x.length ≤ chunkSize := fun x hx =>
      hc x (List.mem_cons_of_mem _ hx)
    have hcLen : c.length ≤ chunkSize := hc c (List.mem_cons_self c cs)
    simp only [processFeeds, processAudioChunk]
    by_cases hbig : chunkSize ≤ (pending ++ c).length
    · simp only [if_pos hbig]
      rw [List.length_append] at hbig
      have hdropLen : ((pending ++ c).drop chunkSize).length < chunkSize := by
        rw [List.length_drop, List.length_append]
        simp only [chunkSize] at *
        omega
      obtain ⟨ihJoin, ihFrames, ihMod, ihDiv⟩ :=
        ih ((pending ++ c).drop chunkSize) hdropLen hcs
      rw [List.length_drop, List.length_append] at ihMod ihDiv
      refine ⟨?_, ?_, ?_, ?_⟩
      · simp only [List.singleton_append, List.flatten_cons, List.append_assoc]
        rw [ihJoin, ← List.append_assoc, List.take_append_drop, List.append_assoc]
      · intro f hf
        rcases List.mem_cons.mp hf with hf | hf
        · subst hf
          rw [List.length_take, List.length_append]
          simp only [chunkSize] at *
          omega
        · exact ihFrames f hf
      · rw [ihMod]
        simp only [List.map_cons, List.sum_cons, chunkSize] at *
        omega
      · simp only [List.singleton_append, List.length_cons, ihDiv]
        simp only [List.map_cons, List.sum_cons, chunkSize] at *
        omega
    · simp only [if_neg hbig]
      rw [List.length_append] at hbig
      have hlt : (pending ++ c).length < chunkSize := by
        rw [List.length_append]; omega
      obtain ⟨ihJoin, ihFrames, ihMod, ihDiv⟩ := ih (pending ++ c) hlt hcs
      rw [List.length_append] at ihMod ihDiv
      refine ⟨?_, ?_, ?_, ?_⟩
      · rw [List.nil_append, ihJoin, List.flatten_cons, List.append_assoc]
      · intro f hf
        exact ihFrames f (by simpa using hf)
      · rw [ihMod]
        simp only [List.map_cons, List.sum_cons, chunkSize] at *
        omega
      · rw [List.nil_append, ihDiv]
        simp only [List.map_cons, List.sum_cons, chunkSize] at *
        omega

/-- A single feed of 3200 bytes produces exactly one frame and leaves 1600
bytes pending, because `processAudioForTranslation` checks the threshold with
`if`, not `while`. -/
theorem single_big_feed (c : List Nat) (h : c.length = 3200) :
    (processFeeds [] [c]).1.length = 1 ∧
    (processFeeds [] [c]).2.length = 1600 := by
  have hb : ([] ++ c).length = 3200 := by simpa using h
  have hif : chunkSize ≤ ([] ++ c).length := by rw [hb]; norm_num [chunkSize]
  simp only [processFeeds, processAudioChunk, if_pos hif]
  refine ⟨rfl, ?_⟩
  rw [List.length_drop, hb]
  rfl

/-- C1 counterexample: feeding a single 3200-byte chunk emits one frame, not
`floor(3200/1600) = 2`, and the pending accumulator is left holding 1600
bytes, not fewer than 1600.  The claim as stated is therefore false for
arbitrarily split feeds. -/
theorem framing_counterexample_single_3200_byte_feed :
    (processFeeds [] [List.replicate 3200 0]).1.length = 1 ∧
    (processFeeds [] [List.replicate 3200 0]).2.length = 1600 ∧
    ¬ ((processFeeds [] [List.replicate 3200 0]).1.length = 3200 / chunkSize ∧
       (processFeeds [] [List.replicate 3200 0]).2.length < chunkSize) := by
  obtain ⟨h1, h2⟩ := single_big_feed (List.replicate 3200 0) (List.length_replicate _ _)
  refine ⟨h1, h2, ?_⟩
  rintro ⟨ha, -⟩
  rw [h1] at ha
  norm_num [chunkSize] at ha

/-- C1 (amended): provided every individual feed carries at most one frame
size (1600 bytes) of audio — as the 160-byte media messages of the deployed
transport do — feeding chunks of total length L emits exactly
`floor(L/1600)` frames of exactly 1600 bytes each, in original byte order,
and leaves `L mod 1600` bytes (fewer than 1600) pending. -/
theorem framing_amended_bounded_feeds (chunks : List (List Nat))
    (hc : ∀ c ∈ chunks, c.length ≤ chunkSize) :
    (processFeeds [] chunks).1.flatten ++ (processFeeds [] chunks).2 =
      chunks.flatten ∧
    (processFeeds [] chunks).1.map List.length =
      List.replicate ((chunks.map List.length).sum / chunkSize) chunkSize ∧
    (processFeeds [] chunks).2.length = (chunks.map List.length).sum % chunkSize ∧
    (processFeeds [] chunks).2.length < chunkSize := by
  obtain ⟨hJoin, hFrames, hMod, hDiv⟩ :=
    processFeeds_spec chunks [] (by simp [chunkSize]) hc
  simp only [List.length_nil, Nat.zero_add, List.nil_append] at hJoin hMod hDiv
  refine ⟨hJoin, ?_, hMod, ?_⟩
  · refine List.eq_replicate_iff.mpr ⟨?_, ?_⟩
    · simpa using hDiv
    · intro b hb
      obtain ⟨f, hf, rfl⟩ := List.mem_map.mp hb
      exact hFrames f hf
  · rw [hMod]
    exact Nat.mod_lt _ (by norm_num [chunkSize])

/-- Witness for the amended framing theorem at feeds of 1000 and 800 bytes:
one frame is emitted and 200 bytes stay pending. -/
theorem framing_amended_bounded_feeds_witness :
    (∀ c ∈ witnessChunks, c.length ≤ chunkSize) ∧
    ((processFeeds [] witnessChunks).1.flatten ++ (processFeeds [] witnessChunks).2 =
        witnessChunks.flatten ∧
      (processFeeds [] witnessChunks).1.map List.length =
        List.replicate ((witnessChunks.map List.length).sum / chunkSize) chunkSize ∧
      (processFeeds [] witnessChunks).2.length =
        (witnessChunks.map List.length).sum % chunkSize ∧
      (processFeeds [] witnessChunks).2.length < chunkSize) :=
  have hc : ∀ c ∈ witnessChunks, c.length ≤ chunkSize := by
    intro c hcm
    simp only [witnessChunks, List.mem_cons, List.not_mem_nil, or_false] at hcm
    rcases hcm with rfl | rfl <;> rw [List.length_replicate] <;> norm_num [chunkSize]
  ⟨hc, framing_amended_bounded_feeds witnessChunks hc⟩

/-! ## C2 — the encoder `linearToMulaw` -/

/-- The exponent loop returns the smallest exponent in 0–7 whose bit window
holds the biased magnitude, and 7 when the magnitude exceeds every window. -/
theorem mulawExponent_least (s : Nat) :
    (s ≤ 0x1F <<< (mulawExponent s + 3) ∧
      ∀ e < mulawExponent s, ¬ s ≤ 0x1F <<< (e + 3)) ∨
    (mulawExponent s = 7 ∧ ∀ e < 8, ¬ s ≤ 0x1F <<< (e + 3)) := by
  by_cases c0 : s ≤ 248
  · have hm : mulawExponent s = 0 := by
      simp only [mulawExponent, findExpAux, Nat.shiftLeft_eq]
      norm_num
      split_ifs <;> omega
    rw [hm]
    left
    refine ⟨by norm_num <;> omega, ?_⟩
    intro e he
    omega
  by_cases c1 : s ≤ 496
  · have hm : mulawExponent s = 1 := by
      simp only [mulawExponent, findExpAux, Nat.shiftLeft_eq]
      norm_num
      split_ifs <;> omega
    rw [hm]
    left
    refine ⟨by norm_num <;> omega, ?_⟩
    intro e he
    interval_cases e <;> norm_num <;> omega
  by_cases c2 : s ≤ 992
  · have hm : mulawExponent s = 2 := by
      simp only [mulawExponent, findExpAux, Nat.shiftLeft_eq]
      norm_num
      split_ifs <;> omega
    rw [hm]
    left
    refine ⟨by norm_num <;> omega, ?_⟩
    intro e he
    interval_cases e <;> norm_num <;> omega
  by_cases c3 : s ≤ 1984
  · have hm : mulawExponent s = 3 := by
      simp only [mulawExponent, findExpAux, Nat.shiftLeft_eq]
      norm_num
      split_ifs <;> omega
    rw [hm]
    left
    refine ⟨by norm_num <;> omega, ?_⟩
    intro e he
    interval_cases e <;> norm_num <;> omega
  by_cases c4 : s ≤ 3968
  · have hm : mulawExponent s = 4 := by
      simp only [mulawExponent, findExpAux, Nat.shiftLeft_eq]
      norm_num
      split_ifs <;> omega
    rw [hm]
    left
    refine ⟨by norm_num <;> omega, ?_⟩
    intro e he
    interval_cases e <;> norm_num <;> omega
  by_cases c5 : s ≤ 7936
  · have hm : mulawExponent s = 5 := by
      simp only [mulawExponent, findExpAux, Nat.shiftLeft_eq]
      norm_num
      split_ifs <;> omega
    rw [hm]
    left
    refine ⟨by norm_num <;> omega, ?_⟩
    intro e he
    interval_cases e <;> norm_num <;> omega
  by_cases c6 : s ≤ 15872
  · have hm : mulawExponent s = 6 := by
      simp only [mulawExponent, findExpAux, Nat.shiftLeft_eq]
      norm_num
      split_ifs <;> omega
    rw [hm]
    left
    refine ⟨by norm_num <;> omega, ?_⟩
    intro e he
    interval_cases e <;> norm_num <;> omega
  by_cases c7 : s ≤ 31744
  · have hm : mulawExponent s = 7 := by
      simp only [mulawExponent, findExpAux, Nat.shiftLeft_eq]
      norm_num
      split_ifs <;> omega
    rw [hm]
    left
    refine ⟨by norm_num <;> omega, ?_⟩
    intro e he
    interval_cases e <;> norm_num <;> omega
  have hm : mulawExponent s = 7 := by
    simp only [mulawExponent, findExpAux, Nat.shiftLeft_eq]
    norm_num
    split_ifs <;> omega
  rw [hm]
  right
  refine ⟨rfl, ?_⟩
  intro e he
  interval_cases e <;> norm_num <;> omega

/-- The exponent loop never leaves the range 0–7. -/
theorem mulawExponent_le (s : Nat) : mulawExponent s ≤ 7 := by
  simp only [mulawExponent, findExpAux]
  split_ifs <;> omega

/-- Three disjoint fields below eight bits OR into a byte. -/
theorem or3_le_255 (sign e m : Nat) (hs : sign ≤ 128) (he : e ≤ 7) (hm : m ≤ 15) :
    sign ||| (e <<< 4) ||| m ≤ 255 := by
  have h1 : sign < 2 ^ 8 := by omega
  have h2 : e <<< 4 < 2 ^ 8 := by
    rw [Nat.shiftLeft_eq]
    omega
  have h3 : m < 2 ^ 8 := by omega
  have := Nat.or_lt_two_pow (Nat.or_lt_two_pow h1 h2) h3
  omega

/-- The packed `sign|exponent|mantissa` value fits in one byte. -/
theorem mulawPacked_le (linear : Int) : mulawPacked linear ≤ 255 := by
  simp only [mulawPacked]
  apply or3_le_255
  · split_ifs <;> omega
  · exact mulawExponent_le _
  · exact Nat.and_le_right

/-- C2 counterexample: at input 0 the encoder returns −1 (the JS `~` of the
packed byte 0), which is not a value in 0..255 as the claim states. -/
theorem encode_counterexample_not_a_byte :
    linearToMulaw 0 = -1 ∧ ¬ (0 ≤ linearToMulaw 0 ∧ linearToMulaw 0 ≤ 255) := by
  decide

/-- C2 (amended): for every 16-bit input the encoder adds the bias 0x84 to
the magnitude, selects the smallest exponent in 0–7 whose bit window fits
the biased magnitude (7 when none fits), packs `sign|exponent|mantissa`
into a byte-sized value, and returns the 32-bit one's complement of that
value — a strictly negative number `-(packed+1)` whose low byte (what a
`Buffer` assignment stores) is `255 - packed`, a value in 0..255; it has no
error path and always produces a value. -/
theorem encode_amended_complement_byte (linear : Int) :
    ((linear.natAbs + 0x84 ≤ 0x1F <<< (mulawExponent (linear.natAbs + 0x84) + 3) ∧
        ∀ e < mulawExponent (linear.natAbs + 0x84),
          ¬ linear.natAbs + 0x84 ≤ 0x1F <<< (e + 3)) ∨
      (mulawExponent (linear.natAbs + 0x84) = 7 ∧
        ∀ e < 8, ¬ linear.natAbs + 0x84 ≤ 0x1F <<< (e + 3))) ∧
    mulawPacked linear ≤ 255 ∧
    linearToMulaw linear = -((mulawPacked linear : Int) + 1) ∧
    linearToMulaw linear < 0 ∧
    linearToMulaw linear % 256 = 255 - (mulawPacked linear : Int) := by
  have hp := mulawPacked_le linear
  refine ⟨mulawExponent_least _, hp, rfl, ?_, ?_⟩
  · simp only [linearToMulaw]
    omega
  · simp only [linearToMulaw]
    omega

/-! ## C3 — the codec round trip -/

/-- C3 is violated: the decoder omits the initial complement of its input
byte that the encoder's final complement presupposes, so the round trip
approximately inverts every bit instead of approximating the identity.  At
byte 15 the code yields `decode(15) = 120`, `encode(120) = -32`, stored byte
224 — which is 209 byte positions away from 15; at byte 0 the stored byte is
255. -/
theorem codec_roundtrip_bitwise_inversion :
    mulawToLinear 15 = 120 ∧
    linearToMulaw (mulawToLinear 15) = -32 ∧
    linearToMulaw (mulawToLinear 15) % 256 = 224 ∧
    mulawToLinear 0 = 0 ∧
    linearToMulaw (mulawToLinear 0) = -1 ∧
    linearToMulaw (mulawToLinear 0) % 256 = 255 := by
  decide

/-! ## C4 — same-language skip -/

/-- C4: when the session's phone and web languages coincide, the pipeline
returns before calling any service — the event trace of the invocation is
empty, so transcription, translation, synthesis and routing never happen. -/
theorem pipeline_same_language_skip (svc : Services) (audioData : List Nat)
    (sourceParticipant lang : String) :
    translateAndForwardAudio svc audioData sourceParticipant lang lang = [] := by
  simp [translateAndForwardAudio]

/-! ## C5 — translation failure falls back to the transcript -/

/-- C5: when transcription yields a non-blank transcript and the translation
service fails, the frame is not dropped: the pipeline still calls synthesis
with exactly the original transcript, and on synthesis success the encoded
frame is handed to the router addressed to the counterpart participant. -/
theorem pipeline_translation_fallback (svc : Services) (audioData : List Nat)
    (sourceParticipant languagesPhone languagesWeb transcription : String)
    (pcm : List Int)
    (hlang : languagesPhone ≠ languagesWeb)
    (htr : svc.transcribe (convertMulawToWav audioData)
        (if sourceParticipant = "phone" then languagesPhone else languagesWeb) =
        some transcription)
    (hblank : (jsTrim transcription).length ≠ 0)
    (hfail : svc.translate transcription
        (if sourceParticipant = "phone" then languagesPhone else languagesWeb)
        (if sourceParticipant = "phone" then languagesWeb else languagesPhone) = none)
    (hsyn : svc.synthesize transcription
        (if sourceParticipant = "phone" then languagesWeb else languagesPhone) =
        some pcm) :
    translateAndForwardAudio svc audioData sourceParticipant languagesPhone
        languagesWeb =
      [PipelineEvent.transcribeCall (convertMulawToWav audioData)
          (if sourceParticipant = "phone" then languagesPhone else languagesWeb),
       PipelineEvent.translateCall transcription
          (if sourceParticipant = "phone" then languagesPhone else languagesWeb)
          (if sourceParticipant = "phone" then languagesWeb else languagesPhone),
       PipelineEvent.synthesizeCall transcription
          (if sourceParticipant = "phone" then languagesWeb else languagesPhone),
       PipelineEvent.route (convertWavToMulaw pcm)
          (if sourceParticipant = "phone" then "web" else "phone")] := by
  have hne : (if sourceParticipant = "phone" then languagesPhone else languagesWeb) ≠
      (if sourceParticipant = "phone" then languagesWeb else languagesPhone) := by
    split_ifs
    · exact hlang
    · exact Ne.symm hlang
  simp only [translateAndForwardAudio, translateText, htr, hfail, if_neg hne,
    if_neg hblank, hsyn]
  simp

/-- Witness for the translation-fallback theorem: concrete services where the
translation call fails, a frame from the phone leg of an es→en session. -/
theorem pipeline_translation_fallback_witness :
    (("es" : String) ≠ "en" ∧ (jsTrim "hola").length ≠ 0 ∧
      svcTranslateFails.translate "hola" "es" "en" = none) ∧
    translateAndForwardAudio svcTranslateFails [] "phone" "es" "en" =
      [PipelineEvent.transcribeCall [] "es",
       PipelineEvent.translateCall "hola" "es" "en",
       PipelineEvent.synthesizeCall "hola" "en",
       PipelineEvent.route (convertWavToMulaw [1]) "web"] := by
  refine ⟨⟨by decide, by decide, rfl⟩, ?_⟩
  have h := pipeline_translation_fallback svcTranslateFails [] "phone" "es" "en"
    "hola" [1] (by decide) rfl (by decide) rfl rfl
  simpa [convertMulawToWav] using h

/-! ## C6 — synthesis failure aborts only the current frame -/

/-- C6: when the speech-synthesis call fails, the frame's event trace ends at
the synthesis call — nothing is encoded and nothing is routed — and the
surrounding per-message handler structure processes the remaining frames of
the stream exactly as if the failing frame had succeeded. -/
theorem pipeline_synthesis_failure_aborts_frame_only (svc : Services)
    (audioData : List Nat)
    (sourceParticipant languagesPhone languagesWeb transcription : String)
    (rest : List (List Nat))
    (hlang : languagesPhone ≠ languagesWeb)
    (htr : svc.transcribe (convertMulawToWav audioData)
        (if sourceParticipant = "phone" then languagesPhone else languagesWeb) =
        some transcription)
    (hblank : (jsTrim transcription).length ≠ 0)
    (hsynfail : svc.synthesize
        (translateText svc transcription
          (if sourceParticipant = "phone" then languagesPhone else languagesWeb)
          (if sourceParticipant = "phone" then languagesWeb else languagesPhone))
        (if sourceParticipant = "phone" then languagesWeb else languagesPhone) =
        none) :
    translateAndForwardAudio svc audioData sourceParticipant languagesPhone
        languagesWeb =
      [PipelineEvent.transcribeCall (convertMulawToWav audioData)
          (if sourceParticipant = "phone" then languagesPhone else languagesWeb),
       PipelineEvent.translateCall transcription
          (if sourceParticipant = "phone" then languagesPhone else languagesWeb)
          (if sourceParticipant = "phone" then languagesWeb else languagesPhone),
       PipelineEvent.synthesizeCall
          (translateText svc transcription
            (if sourceParticipant = "phone" then languagesPhone else languagesWeb)
            (if sourceParticipant = "phone" then languagesWeb else languagesPhone))
          (if sourceParticipant = "phone" then languagesWeb else languagesPhone)] ∧
    (∀ a target, PipelineEvent.route a target ∉
        translateAndForwardAudio svc audioData sourceParticipant languagesPhone
          languagesWeb) ∧
    processFrames svc sourceParticipant languagesPhone languagesWeb
        (audioData :: rest) =
      translateAndForwardAudio svc audioData sourceParticipant languagesPhone
          languagesWeb ++
        processFrames svc sourceParticipant languagesPhone languagesWeb rest := by
  have hne : (if sourceParticipant = "phone" then languagesPhone else languagesWeb) ≠
      (if sourceParticipant = "phone" then languagesWeb else languagesPhone) := by
    split_ifs
    · exact hlang
    · exact Ne.symm hlang
  have htrace : translateAndForwardAudio svc audioData sourceParticipant
      languagesPhone languagesWeb =
      [PipelineEvent.transcribeCall (convertMulawToWav audioData)
          (if sourceParticipant = "phone" then languagesPhone else languagesWeb),
       PipelineEvent.translateCall transcription
          (if sourceParticipant = "phone" then languagesPhone else languagesWeb)
          (if sourceParticipant = "phone" then languagesWeb else languagesPhone),
       PipelineEvent.synthesizeCall
          (translateText svc transcription
            (if sourceParticipant = "phone" then languagesPhone else languagesWeb)
            (if sourceParticipant = "phone" then languagesWeb else languagesPhone))
          (if sourceParticipant = "phone" then languagesWeb else languagesPhone)] := by
    simp only [translateAndForwardAudio, htr, if_neg hne, if_neg hblank, hsynfail]
    simp
  refine ⟨htrace, ?_, rfl⟩
  intro a target hmem
  rw [htrace] at hmem
  simp at hmem

/-- Witness for the synthesis-failure theorem: concrete services whose
synthesis always fails, one failing frame followed by another frame. -/
theorem pipeline_synthesis_failure_witness :
    (("es" : String) ≠ "en" ∧ (jsTrim "hola").length ≠ 0 ∧
      svcSynthesizeFails.synthesize (translateText svcSynthesizeFails "hola" "es" "en")
        "en" = none) ∧
    translateAndForwardAudio svcSynthesizeFails [] "phone" "es" "en" =
      [PipelineEvent.transcribeCall [] "es",
       PipelineEvent.translateCall "hola" "es" "en",
       PipelineEvent.synthesizeCall "hello" "en"] ∧
    processFrames svcSynthesizeFails "phone" "es" "en" [[], [0]] =
      translateAndForwardAudio svcSynthesizeFails [] "phone" "es" "en" ++
        processFrames svcSynthesizeFails "phone" "es" "en" [[0]] := by
  obtain ⟨h1, h2, h3⟩ := pipeline_synthesis_failure_aborts_frame_only
    svcSynthesizeFails [] "phone" "es" "en" "hola" [[0]] (by decide) rfl (by decide) rfl
  refine ⟨⟨by decide, by decide, rfl⟩, ?_, h3⟩
  rw [h1]
  have ht : translateText svcSynthesizeFails "hola" "es" "en" = "hello" := by decide
  simp [ht, convertMulawToWav]

/-! ## C7 — inbound call with no resolvable session -/

/-- C7 counterexample: a web-client call (`From` begins with `client:`) that
carries no session parameter — so no sessionId resolves to a session — is not
given the apology-and-hangup response; the handler attaches it as the `web`
leg of the most recent session in calling/answered state. -/
theorem incoming_call_counterexample_web_attach :
    (handleIncomingCall [("S", sessionCalling)] none (some "web")
        (some "client:web-user-1") 5).1 =
      CallAction.connectAndDial "S" "web" := by
  decide

/-- C7 (amended): every inbound call with no resolvable session — the
sessionId missing, empty, or not a key of the registry — receives the spoken
apology and hangup, leaves the registry untouched, and is never attached to
a session, with one exception: a web-client call (`From` starting with
`client:`) carrying no sessionId is attached as the `web` leg of the most
recent session in status `phone_calling`/`phone_answered` when such a
session exists; when none exists it too receives a spoken apology and
hangup, never an attachment.

The first conjunct covers every call outside the web-client exception branch
(its hypothesis `hnotweb` is the negation of that branch's exact condition)
whose session does not resolve (`hnores` is exactly the code's
`!sessionId || !activeSessions.has(sessionId)`); the second and third cover
the exception branch with and without an active session. -/
theorem incoming_call_amended_unknown_session_hangup
    (sessions sessionsIdle : List (String × Session))
    (querySession queryType bodyFrom : Option String)
    (f : String) (r : Session) (now : Nat)
    (hnotweb : ¬ ((if falsy queryType then "phone" else queryType.getD "") = "web" ∧
        falsy querySession ∧ ¬ falsy bodyFrom ∧
        startsWith (bodyFrom.getD "") "client:"))
    (hnores : falsy querySession ∨
        lookupAssoc sessions (querySession.getD "") = none)
    (hfrom : startsWith f "client:" = true)
    (hrecent : mostRecentActive sessions = some r)
    (hidle : mostRecentActive sessionsIdle = none) :
    handleIncomingCall sessions querySession queryType bodyFrom now =
      (CallAction.sayHangup
        "Sorry, this session is not available. Please try again.", sessions) ∧
    (handleIncomingCall sessions none (some "web") (some f) now).1 =
      CallAction.connectAndDial r.sessionId "web" ∧
    handleIncomingCall sessionsIdle none (some "web") (some f) now =
      (CallAction.sayHangup
        "No active translation session found. Please start a new session.",
       sessionsIdle) := by
  have hfne : f ≠ "" := by
    intro hf
    rw [hf] at hfrom
    simp [startsWith, List.isPrefixOf] at hfrom
  have htrue : (if falsy (some "web") then "phone" else (some "web").getD "") = "web" ∧
      falsy (none : Option String) ∧ ¬ falsy (some f) ∧
      startsWith ((some f).getD "") "client:" := by
    refine ⟨by simp [falsy], by simp [falsy], by simp [falsy, hfne], by simpa using hfrom⟩
  refine ⟨?_, ?_, ?_⟩
  · rw [handleIncomingCall, if_neg hnotweb, if_pos hnores]
  · rw [handleIncomingCall, if_pos htrue, hrecent]
  · rw [handleIncomingCall, if_pos htrue, hidle]

/-- Witness for the amended incoming-call theorem: a phone call with an
unknown id `"X"` against a registry holding one session mid-dial, a
sessionless web-client call against that registry, and the same web-client
call against an empty registry. -/
theorem incoming_call_amended_witness :
    ((¬ ((if falsy (none : Option String) then "phone"
            else (none : Option String).getD "") = "web" ∧
          falsy (some "X") ∧ ¬ falsy (none : Option String) ∧
          startsWith ((none : Option String).getD "") "client:")) ∧
      (falsy (some "X") ∨ lookupAssoc [("S", sessionCalling)] "X" = none) ∧
      startsWith "client:web-user-1" "client:" = true ∧
      mostRecentActive [("S", sessionCalling)] = some sessionCalling ∧
      mostRecentActive ([] : List (String × Session)) = none) ∧
    handleIncomingCall [("S", sessionCalling)] (some "X") none none 5 =
      (CallAction.sayHangup
        "Sorry, this session is not available. Please try again.",
       [("S", sessionCalling)]) ∧
    (handleIncomingCall [("S", sessionCalling)] none (some "web")
        (some "client:web-user-1") 5).1 =
      CallAction.connectAndDial sessionCalling.sessionId "web" ∧
    handleIncomingCall [] none (some "web") (some "client:web-user-1") 5 =
      (CallAction.sayHangup
        "No active translation session found. Please start a new session.",
       []) :=
  ⟨⟨by decide, by decide, by decide, by decide, by decide⟩,
   incoming_call_amended_unknown_session_hangup [("S", sessionCalling)] []
     (some "X") none none "client:web-user-1" sessionCalling 5 (by decide)
     (by decide) (by decide) (by decide) (by decide)⟩

/-! ## C8 — session lifecycle through conference end and teardown -/

/-- C8: from a registered session in status `created`, the event sequence
call-status `answered`, conference `participant-join` (phone),
`conference-start`, `participant-join` (web), `conference-end` leaves the
session in status `conference_ended` with a 60000 ms deletion timer
scheduled, and once those 60000 ms elapse the session is gone from the
registry. -/
theorem session_lifecycle_conference_end_teardown (sid : String) (s : Session)
    (t1 t2 t3 t4 : Nat) (hsid : sid ≠ "") (hstatus : s.status = "created") :
    (Option.map Session.status
      (lookupAssoc (handleConferenceStatus
        (handleConferenceStatus
          (handleConferenceStatus
            (handleConferenceStatus
              (handleCallStatus ⟨[(sid, s)], []⟩ (some sid) "answered")
              (some sid) (some "phone") "participant-join" t1)
            (some sid) (some "phone") "conference-start" t2)
          (some sid) (some "web") "participant-join" t3)
        (some sid) (some "web") "conference-end" t4).sessions sid) =
      some "conference_ended") ∧
    (handleConferenceStatus
        (handleConferenceStatus
          (handleConferenceStatus
            (handleConferenceStatus
              (handleCallStatus ⟨[(sid, s)], []⟩ (some sid) "answered")
              (some sid) (some "phone") "participant-join" t1)
            (some sid) (some "phone") "conference-start" t2)
          (some sid) (some "web") "participant-join" t3)
        (some sid) (some "web") "conference-end" t4).timers = [(60000, sid)] ∧
    lookupAssoc (elapse 60000 (handleConferenceStatus
        (handleConferenceStatus
          (handleConferenceStatus
            (handleConferenceStatus
              (handleCallStatus ⟨[(sid, s)], []⟩ (some sid) "answered")
              (some sid) (some "phone") "participant-join" t1)
            (some sid) (some "phone") "conference-start" t2)
          (some sid) (some "web") "participant-join" t3)
        (some sid) (some "web") "conference-end" t4)).sessions sid = none := by
  simp [handleCallStatus, handleConferenceStatus, lookupAssoc, setAssoc, falsy,
    hsid, elapse]

/-- Witness for the lifecycle theorem at a concrete session `s1`. -/
theorem session_lifecycle_witness :
    (("s1" : String) ≠ "" ∧ sessionCreated.status = "created") ∧
    (Option.map Session.status
      (lookupAssoc (handleConferenceStatus
        (handleConferenceStatus
          (handleConferenceStatus
            (handleConferenceStatus
              (handleCallStatus ⟨[("s1", sessionCreated)], []⟩ (some "s1") "answered")
              (some "s1") (some "phone") "participant-join" 1)
            (some "s1") (some "phone") "conference-start" 2)
          (some "s1") (some "web") "participant-join" 3)
        (some "s1") (some "web") "conference-end" 4).sessions "s1") =
      some "conference_ended") ∧
    lookupAssoc (elapse 60000 (handleConferenceStatus
        (handleConferenceStatus
          (handleConferenceStatus
            (handleConferenceStatus
              (handleCallStatus ⟨[("s1", sessionCreated)], []⟩ (some "s1") "answered")
              (some "s1") (some "phone") "participant-join" 1)
            (some "s1") (some "phone") "conference-start" 2)
          (some "s1") (some "web") "participant-join" 3)
        (some "s1") (some "web") "conference-end" 4)).sessions "s1" = none := by
  obtain ⟨h1, -, h3⟩ := session_lifecycle_conference_end_teardown "s1" sessionCreated
    1 2 3 4 (by decide) (by decide)
  exact ⟨⟨by decide, by decide⟩, h1, h3⟩

/-! ## C9 — routing isolation between sessions -/

/-- For session ids of equal length — as every id in the registry is, since
`uuidv4()` always produces the 36-character canonical form — the stream key
construction is injective in the session id, whatever the participant
strings are. -/
theorem streamKey_session_inj (A B p q : String) (hlen : A.length = B.length)
    (h : streamKey A p = streamKey B q) : A = B := by
  unfold streamKey at h
  have hd : (A.data ++ ['-']) ++ p.data = (B.data ++ ['-']) ++ q.data := by
    have := congrArg String.data h
    simpa [String.data_append] using this
  have hl : (A.data ++ ['-']).length = (B.data ++ ['-']).length := by
    simpa [List.length_append] using hlen
  have h2 := List.append_inj_left hd hl
  have hAB : A.data = B.data := by
    have hl2 : A.data.length = B.data.length := by simpa using hlen
    exact List.append_inj_left h2 hl2
  cases A
  cases B
  exact congrArg String.mk hAB

/-- A successful association-list lookup returns a stored binding. -/
theorem lookupAssoc_mem {α : Type} (l : List (String × α)) (key : String) (v : α)
    (h : lookupAssoc l key = some v) : (key, v) ∈ l := by
  induction l with
  | nil => simp [lookupAssoc] at h
  | cons kv rest ih =>
    obtain ⟨k, w⟩ := kv
    simp only [lookupAssoc] at h
    split_ifs at h with hk
    · obtain rfl := hk
      obtain rfl : w = v := by simpa using h
      exact List.mem_cons_self _ _
    · exact List.mem_cons_of_mem _ (ih h)

/-- C9: with every stream handle registered under the key built from its own
session id (as `handleMediaStream` registers them) and all session ids of the
registry's uniform uuid length, a delivery keyed by session `A` can never
produce a key equal to one registered for a different session `B`, and any
handle the delivery lookup returns records session id `A` itself. -/
theorem routing_isolation_distinct_sessions
    (streams : List (String × StreamEntry)) (A B t q : String) (e : StreamEntry)
    (hAB : A.length = B.length) (hne : A ≠ B)
    (hwf : StreamsWellFormed streams)
    (hlen : ∀ kv ∈ streams, kv.2.sessionId.length = A.length)
    (hget : deliveryLookup streams A t = some e) :
    streamKey A t ≠ streamKey B q ∧ e.sessionId = A := by
  constructor
  · intro h
    exact hne (streamKey_session_inj A B t q hAB h)
  · have hmem : (streamKey A t, e) ∈ streams := lookupAssoc_mem _ _ _ hget
    have hkey : streamKey A t = streamKey e.sessionId e.participant := hwf _ hmem
    have hlene : e.sessionId.length = A.length := hlen _ hmem
    exact (streamKey_session_inj A e.sessionId t e.participant hlene.symm hkey).symm

/-- Witness for routing isolation: two registered streams for two distinct
36-character session ids; the delivery for the first session finds only its
own handle. -/
theorem routing_isolation_witness :
    (uuidA.length = uuidB.length ∧ uuidA ≠ uuidB ∧
      StreamsWellFormed witnessStreams ∧
      (∀ kv ∈ witnessStreams, kv.2.sessionId.length = uuidA.length) ∧
      deliveryLookup witnessStreams uuidA "phone" = some ⟨"phone", uuidA⟩) ∧
    streamKey uuidA "phone" ≠ streamKey uuidB "web" ∧
    (⟨"phone", uuidA⟩ : StreamEntry).sessionId = uuidA := by
  have hwf : StreamsWellFormed witnessStreams := by
    intro kv hkv
    simp only [witnessStreams, List.mem_cons, List.not_mem_nil, or_false] at hkv
    rcases hkv with rfl | rfl <;> rfl
  have hlen : ∀ kv ∈ witnessStreams, kv.2.sessionId.length = uuidA.length := by
    intro kv hkv
    simp only [witnessStreams, List.mem_cons, List.not_mem_nil, or_false] at hkv
    rcases hkv with rfl | rfl <;> decide
  refine ⟨⟨by decide, by decide, hwf, hlen, by decide⟩, ?_⟩
  exact routing_isolation_distinct_sessions witnessStreams uuidA uuidB "phone" "web"
    ⟨"phone", uuidA⟩ (by decide) (by decide) hwf hlen (by decide)

/-! ## C10 — decoder range and `writeInt16LE` safety -/

/-- The decoded magnitude is bounded by the largest mantissa and exponent:
`15 <<< 10 + 0x84 <<< 7 = 32256`. -/
theorem decode_sample_bound (b : Nat) :
    (b &&& 0x0F) * 2 ^ (((b >>> 4) &&& 0x07) + 3) +
      (if ((b >>> 4) &&& 0x07) ≠ 0 then 0x84 * 2 ^ ((b >>> 4) &&& 0x07) else 0) ≤
      32256 := by
  have hm : b &&& 0x0F ≤ 15 := Nat.and_le_right
  have he : (b >>> 4) &&& 0x07 ≤ 7 := Nat.and_le_right
  set m := b &&& 0x0F with hmdef
  set e := (b >>> 4) &&& 0x07 with hedef
  clear_value m e
  interval_cases e <;> simp <;> omega

/-- Every byte decodes to a sample in `[-32256, 32256]`. -/
theorem decode_range (b : Nat) :
    -32256 ≤ mulawToLinear b ∧ mulawToLinear b ≤ 32256 := by
  have h := decode_sample_bound b
  simp only [mulawToLinear, Nat.shiftLeft_eq]
  split_ifs at h ⊢ <;> constructor <;> omega

/-- C10: for every byte value in 0..255 the decoder's result lies in
`[-32256, 32256]`, strictly inside the signed 16-bit range; consequently
every sample `convertMulawToWav` passes to `writeInt16LE` is within the
range Node's `writeInt16LE` accepts, for any frame of bytes, so the
conversion cannot fault. -/
theorem decode_range_int16_safe (b : Nat) (hb : b < 256) (frame : List Nat)
    (hf : ∀ x ∈ frame, x < 256) :
    (-32256 ≤ mulawToLinear b ∧ mulawToLinear b ≤ 32256 ∧
      -32768 < mulawToLinear b ∧ mulawToLinear b < 32767) ∧
    (∀ s ∈ convertMulawToWav frame, -32768 ≤ s ∧ s ≤ 32767) := by
  obtain ⟨h1, h2⟩ := decode_range b
  refine ⟨⟨h1, h2, by omega, by omega⟩, ?_⟩
  intro s hs
  obtain ⟨x, hx, rfl⟩ := List.mem_map.mp hs
  obtain ⟨hx1, hx2⟩ := decode_range x
  omega

/-- Witness for the decoder-range theorem at byte 255 and a two-byte frame. -/
theorem decode_range_int16_safe_witness :
    ((255 : Nat) < 256 ∧ ∀ x ∈ [(0 : Nat), 255], x < 256) ∧
    ((-32256 ≤ mulawToLinear 255 ∧ mulawToLinear 255 ≤ 32256 ∧
        -32768 < mulawToLinear 255 ∧ mulawToLinear 255 < 32767) ∧
      (∀ s ∈ convertMulawToWav [0, 255], -32768 ≤ s ∧ s ≤ 32767)) :=
  ⟨⟨by decide, by decide⟩,
   decode_range_int16_safe 255 (by decide) [0, 255] (by decide)⟩

end Relay
